import Mathlib

/-!
Shallow embedding of the GPU path-resolution code of `parallelo/singularity`
(`internal/pkg/util/gpu` / `gpuutils` / `rocmutils`; the three copies share the
same algorithm, embedded once).  Strings are modelled as lists of characters,
Go's `strings.HasPrefix`/`strings.Contains` as `List.IsPrefix` (`<+:`) and
`List.IsInfix` (`<:+:`).  External collaborators (helper tool, manifest file,
`ldconfig -p`, `elf.Open`, `exec.LookPath`, the PATH variable) are inputs of
the model; the `os.Getenv("PATH")` / `os.Setenv("PATH", _)` calls performed by
`Paths` are recorded as an operation trace.
-/

/-- Strings are lists of characters. -/
abbrev Str := List Char

/-- The shared-object marker `".so"` tested with `strings.Contains`. -/
def soStr : Str := ".so".toList

/-- Go `unicode.IsSpace` restricted to the ASCII whitespace characters
(space, tab, newline, vertical tab, form feed, carriage return); the claims
never involve non-ASCII whitespace. -/
def isSpaceGo (c : Char) : Bool :=
  c == ' ' || c == '\t' || c == '\n' || c == '\x0b' || c == '\x0c' || c == '\r'

/-- Go `strings.TrimSpace`: drop whitespace from both ends. -/
def trimSpaceL (s : Str) : Str :=
  ((s.dropWhile isSpaceGo).reverse.dropWhile isSpaceGo).reverse

/-- The filter of `gpuliblist` (part_000 line 75): keep a trimmed line iff it
is nonempty and its first character is not `'#'`. -/
def liblistKeep : Str → Bool
  | [] => false
  | c :: _ => c != '#'

/-- The manifest-file provider `gpuliblist` (part_000 lines 63-80): the file
content is given as its list of raw lines, `none` when the file cannot be
opened; each line is trimmed and blank or `'#'`-comment lines are dropped. -/
def gpuliblist (file : Option (List Str)) : Option (List Str) :=
  match file with
  | none => none
  | some lines => some ((lines.map trimSpaceL).filter liblistKeep)

/-- Provider fallback of `Paths` (part_000 lines 91-101): the helper-tool
provider `gpuContainerCli` is consulted first (its already-parsed candidate
list, `none` on error); only on its failure is the manifest file read. -/
def candidateStage (cli : Option (List Str)) (file : Option (List Str)) :
    Option (List Str) :=
  match cli with
  | some fs => some fs
  | none => gpuliblist file

/-- Resolution state of the loop of `Paths` (part_000 lines 140-182):
`libNames` and `binsSeen` are the key sets of the Go maps `libs` and `bins`
in insertion order, `libraries` and `binaries` the two result slices. -/
structure RState where
  libNames : List Str
  libraries : List Str
  binsSeen : List Str
  binaries : List Str
deriving DecidableEq

/-- One iteration of the inner loop over the ldconfig cache (part_000 lines
149-168) for one candidate `gpuFile`: the entry `e = (libPath, libName)`
matches when `libName` starts with `gpuFile`; a first-time name is opened
with `elf.Open` (`elfOpen`, `none` on failure) and recorded exactly when its
machine equals the reference machine. -/
def processLibEntry (elfOpen : Str → Option Nat) (machine : Nat) (gpuFile : Str)
    (st : RState) (e : Str × Str) : RState :=
  if gpuFile <+: e.2 then
    if e.2 ∈ st.libNames then st
    else
      match elfOpen e.1 with
      | none => st
      | some m =>
        if m = machine then
          { st with libNames := st.libNames ++ [e.2],
                    libraries := st.libraries ++ [e.1] }
        else st
  else st

/-- One iteration of the outer loop of `Paths` (part_000 lines 146-182): a
candidate containing `".so"` is matched against every cache entry; any other
candidate is resolved as a binary with `exec.LookPath` (`lookPath`, `none`
when not found) and recorded when its resolved path is unseen. -/
def processCandidate (elfOpen : Str → Option Nat) (machine : Nat)
    (ldCache : List (Str × Str)) (lookPath : Str → Option Str)
    (st : RState) (gpuFile : Str) : RState :=
  if soStr <:+: gpuFile then
    ldCache.foldl (processLibEntry elfOpen machine gpuFile) st
  else
    match lookPath gpuFile with
    | none => st
    | some binary =>
      if binary ∈ st.binsSeen then st
      else { st with binsSeen := st.binsSeen ++ [binary],
                     binaries := st.binaries ++ [binary] }

/-- The resolution loop of `Paths` over the candidate list, starting from
empty seen-sets and result lists.  The ldconfig cache `map[string]string` is
given as its iteration list of `(libPath, libName)` pairs (Go map iteration
order is unspecified, so every theorem quantifies over the list). -/
def resolve (elfOpen : Str → Option Nat) (machine : Nat)
    (ldCache : List (Str × Str)) (lookPath : Str → Option Str)
    (gpuFiles : List Str) : RState :=
  gpuFiles.foldl (processCandidate elfOpen machine ldCache lookPath)
    ⟨[], [], [], []⟩

/-- Error outcomes of `Paths`: fallback manifest unreadable (part_000 line
99), `ldconfig -p` failed (line 107), `/proc/self/exe` unreadable (line 120).
The constant regexp of line 112 always compiles and is not modelled. -/
inductive PErr where
  | providerErr
  | ldconfigErr
  | archErr
deriving DecidableEq

/-- An explicit PATH-variable operation performed by `Paths` (part_000 lines
85-89): `os.Getenv("PATH")` or `os.Setenv("PATH", v)`. -/
inductive EnvOp where
  | getPATH
  | setPATH (v : Str)
deriving DecidableEq

/-- Replay a trace of PATH operations over an initial PATH value. -/
def runEnvOps (p : Str) : List EnvOp → Str
  | [] => p
  | EnvOp.getPATH :: ops => runEnvOps p ops
  | EnvOp.setPATH v :: ops => runEnvOps v ops

/-- The external collaborators of one `Paths` call: current PATH value, the
two providers, the parsed `ldconfig -p` entries (`none` when the command
fails), the reference machine of `/proc/self/exe` (`none` when unreadable),
`elf.Open` on library paths and `exec.LookPath` on binary names. -/
structure World where
  pathVar : Str
  cli : Option (List Str)
  liblistFile : Option (List Str)
  ldCache : Option (List (Str × Str))
  selfArch : Option Nat
  elfOpen : Str → Option Nat
  lookPath : Str → Option Str

/-- The whole `Paths` function (part_000 lines 84-185): PATH save/override
when `envPath` is nonempty with a deferred restore that runs on every return
path, provider fallback, then the fatal checks for ldconfig and the reference
architecture, then the resolution loop.  Returns the result together with the
trace of explicit PATH operations. -/
def PathsFull (envPath : Str) (w : World) :
    Except PErr (List Str × List Str) × List EnvOp :=
  let oldPath := w.pathVar
  let pre : List EnvOp :=
    if envPath = [] then [] else [EnvOp.getPATH, EnvOp.setPATH envPath]
  let restore : List EnvOp :=
    if envPath = [] then [] else [EnvOp.setPATH oldPath]
  match candidateStage w.cli w.liblistFile with
  | none => (Except.error PErr.providerErr, pre ++ restore)
  | some gpuFiles =>
    match w.ldCache with
    | none => (Except.error PErr.ldconfigErr, pre ++ restore)
    | some cache =>
      match w.selfArch with
      | none => (Except.error PErr.archErr, pre ++ restore)
      | some machine =>
        let st := resolve w.elfOpen machine cache w.lookPath gpuFiles
        (Except.ok (st.libraries, st.binaries), pre ++ restore)

/-- Appending an unseen element keeps a list duplicate-free. -/
theorem nodup_snoc {α : Type} {l : List α} {a : α} (h : l.Nodup) (ha : a ∉ l) :
    (l ++ [a]).Nodup := by
  rw [List.nodup_append]
  refine ⟨h, List.nodup_singleton a, ?_⟩
  intro x hx hxa
  rw [List.mem_singleton] at hxa
  exact ha (hxa ▸ hx)

/-- Invariant of the resolution loop: seen library names are duplicate-free,
the binary seen-set equals the binary result list and is duplicate-free, each
recorded name pairs with the path of a cache entry matched by some `".so"`
candidate, and every recorded library path opened with the reference
machine. -/
structure RInv (eo : Str → Option Nat) (m : Nat) (cache : List (Str × Str))
    (cands : List Str) (st : RState) : Prop where
  names_nodup : st.libNames.Nodup
  bins_eq : st.binsSeen = st.binaries
  bins_nodup : st.binsSeen.Nodup
  len_eq : st.libNames.length = st.libraries.length
  pair_src : ∀ pr ∈ st.libNames.zip st.libraries,
      (pr.2, pr.1) ∈ cache ∧ ∃ g, g ∈ cands ∧ (soStr <:+: g) ∧ g <+: pr.1
  arch_ok : ∀ p ∈ st.libraries, eo p = some m

/-- The empty starting state satisfies the invariant. -/
theorem rinv_init (eo : Str → Option Nat) (m : Nat) (cache : List (Str × Str))
    (cands : List Str) : RInv eo m cache cands ⟨[], [], [], []⟩ := by
  constructor <;> simp

/-- One inner-loop iteration preserves the invariant. -/
theorem processLibEntry_rinv {eo : Str → Option Nat} {m : Nat}
    {cache : List (Str × Str)} {cands : List Str} {g : Str} {st : RState}
    {e : Str × Str} (he : e ∈ cache) (hg : g ∈ cands) (hso : soStr <:+: g)
    (h : RInv eo m cache cands st) :
    RInv eo m cache cands (processLibEntry eo m g st e) := by
  rw [processLibEntry]
  split
  · next hpre =>
    split
    · exact h
    · next hseen =>
      split
      · exact h
      · next mv heq =>
        split
        · next hm =>
          subst hm
          refine ⟨nodup_snoc h.names_nodup hseen, h.bins_eq, h.bins_nodup,
            by simp [h.len_eq], ?_, ?_⟩
          · intro pr hpr
            rw [List.zip_append h.len_eq] at hpr
            rcases List.mem_append.mp hpr with hold | hnew
            · exact h.pair_src pr hold
            · simp only [List.zip_cons_cons, List.zip_nil_right,
                List.mem_singleton] at hnew
              subst hnew
              exact ⟨by simpa using he, ⟨g, hg, hso, hpre⟩⟩
          · intro p hp
            rcases List.mem_append.mp hp with hold | hnew
            · exact h.arch_ok p hold
            · rw [List.mem_singleton] at hnew
              subst hnew
              exact heq
        · exact h
  · exact h

/-- The inner loop over any part of the cache preserves the invariant. -/
theorem foldl_processLibEntry_rinv {eo : Str → Option Nat} {m : Nat}
    {cache : List (Str × Str)} {cands : List Str} {g : Str}
    (hg : g ∈ cands) (hso : soStr <:+: g) :
    ∀ (l : List (Str × Str)), (∀ e ∈ l, e ∈ cache) → ∀ st : RState,
      RInv eo m cache cands st →
      RInv eo m cache cands (l.foldl (processLibEntry eo m g) st) := by
  intro l
  induction l with
  | nil => exact fun _ st h => h
  | cons e t ih =>
    intro hsub st h
    exact ih (fun x hx => hsub x (List.mem_cons_of_mem _ hx)) _
      (processLibEntry_rinv (hsub e (List.mem_cons_self _ _)) hg hso h)

/-- The inner loop never touches the binary seen-set or result list. -/
theorem processLibEntry_bins (eo : Str → Option Nat) (m : Nat) (g : Str)
    (st : RState) (e : Str × Str) :
    (processLibEntry eo m g st e).binsSeen = st.binsSeen ∧
    (processLibEntry eo m g st e).binaries = st.binaries := by
  rw [processLibEntry]
  split
  · split
    · exact ⟨rfl, rfl⟩
    · split
      · exact ⟨rfl, rfl⟩
      · split
        · exact ⟨rfl, rfl⟩
        · exact ⟨rfl, rfl⟩
  · exact ⟨rfl, rfl⟩

/-- Folding the inner loop never touches binaries. -/
theorem foldl_processLibEntry_bins (eo : Str → Option Nat) (m : Nat) (g : Str) :
    ∀ (l : List (Str × Str)) (st : RState),
      (l.foldl (processLibEntry eo m g) st).binsSeen = st.binsSeen ∧
      (l.foldl (processLibEntry eo m g) st).binaries = st.binaries := by
  intro l
  induction l with
  | nil => exact fun st => ⟨rfl, rfl⟩
  | cons e t ih =>
    intro st
    refine ⟨?_, ?_⟩
    · rw [List.foldl_cons, (ih _).1, (processLibEntry_bins eo m g st e).1]
    · rw [List.foldl_cons, (ih _).2, (processLibEntry_bins eo m g st e).2]

/-- One outer-loop iteration preserves the invariant. -/
theorem processCandidate_rinv {eo : Str → Option Nat} {m : Nat}
    {cache : List (Str × Str)} {lp : Str → Option Str} {cands : List Str}
    {st : RState} {g : Str} (hg : g ∈ cands) (h : RInv eo m cache cands st) :
    RInv eo m cache cands (processCandidate eo m cache lp st g) := by
  rw [processCandidate]
  split
  · next hso =>
    exact foldl_processLibEntry_rinv hg hso cache (fun e he => he) st h
  · split
    · exact h
    · next b heq =>
      split
      · exact h
      · next hseen =>
        exact ⟨h.names_nodup, by simp [h.bins_eq], nodup_snoc h.bins_nodup hseen,
          h.len_eq, h.pair_src, h.arch_ok⟩

/-- The outer loop over any part of the candidate list preserves the
invariant. -/
theorem foldl_processCandidate_rinv {eo : Str → Option Nat} {m : Nat}
    {cache : List (Str × Str)} {lp : Str → Option Str} {cands : List Str} :
    ∀ (l : List Str), (∀ g ∈ l, g ∈ cands) → ∀ st : RState,
      RInv eo m cache cands st →
      RInv eo m cache cands (l.foldl (processCandidate eo m cache lp) st) := by
  intro l
  induction l with
  | nil => exact fun _ st h => h
  | cons g t ih =>
    intro hsub st h
    exact ih (fun x hx => hsub x (List.mem_cons_of_mem _ hx)) _
      (processCandidate_rinv (hsub g (List.mem_cons_self _ _)) h)

/-- The full resolution loop satisfies the invariant. -/
theorem resolve_rinv (eo : Str → Option Nat) (m : Nat)
    (cache : List (Str × Str)) (lp : Str → Option Str) (cands : List Str) :
    RInv eo m cache cands (resolve eo m cache lp cands) :=
  foldl_processCandidate_rinv cands (fun _ hg => hg) _
    (rinv_init eo m cache cands)

/-- Concrete library path for the spec scenario of C7. -/
def pFoo : Str := "/usr/lib/libfoo.so.1".toList

/-- Cache-reported name of `pFoo`. -/
def nFoo : Str := "libfoo.so.1".toList

/-- Candidate name of the C7 scenario. -/
def cFoo : Str := "libfoo.so".toList

/-- ELF opener of the C7 scenario: `pFoo` opens with machine 1. -/
def elfFoo : Str → Option Nat := fun p => if p = pFoo then some 1 else none

/-- A search path on which no binary is found. -/
def lookNone : Str → Option Str := fun _ => none

/-- First cache path of the C2 scenario (architecture-incompatible build). -/
def pA : Str := "/a/libbar.so.1".toList

/-- Second cache path of the C2 scenario (architecture-compatible build). -/
def pB : Str := "/b/libbar.so.1".toList

/-- The library name shared by both C2 cache entries. -/
def nBar : Str := "libbar.so.1".toList

/-- Candidate name of the C2 scenario. -/
def cBar : Str := "libbar.so".toList

/-- ELF opener of the C2 scenario: `pA` has machine 7, `pB` machine 2; the
reference machine is 2. -/
def elfBar : Str → Option Nat :=
  fun p => if p = pA then some 7 else if p = pB then some 2 else none

/-- Shared path of the two same-path cache entries of the C1 scenario. -/
def pBaz : Str := "/lib/libbaz.so.1".toList

/-- First cache-reported name for `pBaz`. -/
def nBazA : Str := "libbaz.so.1".toList

/-- Second, different cache-reported name for `pBaz`. -/
def nBazB : Str := "libbaz.so.1.0".toList

/-- Candidate name of the C1 scenario. -/
def cBaz : Str := "libbaz.so".toList

/-- ELF opener of the C1 scenario: `pBaz` opens with machine 1. -/
def elfBaz : Str → Option Nat := fun p => if p = pBaz then some 1 else none

/-- C1: for every input, the resolution result holds no library name twice
(the seen-name list behind the library results is duplicate-free) and no
binary path twice; library dedup is keyed by the cache-reported name, not the
path, so two cache entries with different names for the same path are both
included, as the concrete second conjunct shows. -/
theorem C1_result_dedup :
    (∀ (eo : Str → Option Nat) (m : Nat) (cache : List (Str × Str))
      (lp : Str → Option Str) (cands : List Str),
      (resolve eo m cache lp cands).libNames.Nodup ∧
      (resolve eo m cache lp cands).binaries.Nodup) ∧
    (resolve elfBaz 1 [(pBaz, nBazA), (pBaz, nBazB)] lookNone [cBaz]).libraries
      = [pBaz, pBaz] := by
  constructor
  · intro eo m cache lp cands
    have h := resolve_rinv eo m cache lp cands
    exact ⟨h.names_nodup, h.bins_eq ▸ h.bins_nodup⟩
  · decide

/-- C2 counterexample: with two cache entries carrying the same library name,
the first opening with machine 7 while the reference machine is 2, the later
architecture-compatible entry IS reconsidered and appears in the output — the
name was not marked seen on the architecture mismatch, refuting the claim
that it "is never reconsidered and never appears in the output". -/
theorem C2_counterexample :
    elfBar pA = some 7 ∧ (7 : Nat) ≠ 2 ∧ cBar <+: nBar ∧
    (resolve elfBar 2 [(pA, nBar), (pB, nBar)] lookNone [cBar]).libraries
      = [pB] := by
  decide

/-- C2 amended: when a matching cache entry opens with an architecture
different from the reference architecture, the inner-loop step leaves the
state completely unchanged — in particular the library name is NOT marked
seen, so a later cache entry with the same name is reconsidered. -/
theorem C2_arch_mismatch_not_seen (eo : Str → Option Nat) (m mf : Nat)
    (g : Str) (st : RState) (e : Str × Str)
    (hopen : eo e.1 = some mf) (hne : mf ≠ m) :
    processLibEntry eo m g st e = st := by
  rw [processLibEntry]
  split
  · split
    · rfl
    · rw [hopen]
      simp [hne]
  · rfl

/-- Witness for the amended C2 theorem at the concrete C2 scenario. -/
theorem C2_arch_mismatch_not_seen_witness :
    elfBar pA = some 7 ∧ (7 : Nat) ≠ 2 ∧
    processLibEntry elfBar 2 cBar ⟨[], [], [], []⟩ (pA, nBar) = ⟨[], [], [], []⟩ :=
  ⟨by decide, by decide, C2_arch_mismatch_not_seen elfBar 2 7 cBar ⟨[], [], [], []⟩
    (pA, nBar) (by decide) (by decide)⟩

/-- C3: a path appears in the resolved library list only if opening it
yields exactly the reference machine; an architecture-mismatched library
never appears. -/
theorem C3_arch_filter (eo : Str → Option Nat) (m : Nat)
    (cache : List (Str × Str)) (lp : Str → Option Str) (cands : List Str)
    (p : Str) (hp : p ∈ (resolve eo m cache lp cands).libraries) :
    eo p = some m :=
  (resolve_rinv eo m cache lp cands).arch_ok p hp

/-- Witness for C3 at the concrete C7 scenario. -/
theorem C3_arch_filter_witness :
    pFoo ∈ (resolve elfFoo 1 [(pFoo, nFoo)] lookNone [cFoo]).libraries ∧
    elfFoo pFoo = some 1 :=
  ⟨by decide,
    C3_arch_filter elfFoo 1 [(pFoo, nFoo)] lookNone [cFoo] pFoo (by decide)⟩

/-- C7: with cache `{"/usr/lib/libfoo.so.1": "libfoo.so.1"}`, candidates
`["libfoo.so"]` and matching architectures, the resolved library list is
exactly `["/usr/lib/libfoo.so.1"]`. -/
theorem C7_scenario_libfoo :
    (resolve elfFoo 1 [(pFoo, nFoo)] lookNone [cFoo]).libraries = [pFoo] := by
  decide

/-- C8: every path in the resolved library list was recorded under a
cache-reported library name having some `".so"`-marked candidate as a string
prefix. -/
theorem C8_name_source (eo : Str → Option Nat) (m : Nat)
    (cache : List (Str × Str)) (lp : Str → Option Str) (cands : List Str)
    (p : Str) (hp : p ∈ (resolve eo m cache lp cands).libraries) :
    ∃ n, (p, n) ∈ cache ∧ ∃ g, g ∈ cands ∧ (soStr <:+: g) ∧ g <+: n := by
  have h := resolve_rinv eo m cache lp cands
  rw [List.mem_iff_getElem] at hp
  obtain ⟨i, hi, hpi⟩ := hp
  have hiN : i < (resolve eo m cache lp cands).libNames.length := by
    rw [h.len_eq]; exact hi
  have hiz : i < ((resolve eo m cache lp cands).libNames.zip
      (resolve eo m cache lp cands).libraries).length := by
    rw [List.length_zip]
    exact lt_min hiN hi
  have hpr := h.pair_src ((resolve eo m cache lp cands).libNames.zip
      (resolve eo m cache lp cands).libraries)[i] (List.getElem_mem hiz)
  rw [List.getElem_zip] at hpr
  refine ⟨(resolve eo m cache lp cands).libNames[i], ?_, ?_⟩
  · have := hpr.1
    simp only at this
    rwa [hpi] at this
  · have := hpr.2
    simpa only using this

/-- Witness for C8 at the concrete C7 scenario. -/
theorem C8_name_source_witness :
    pFoo ∈ (resolve elfFoo 1 [(pFoo, nFoo)] lookNone [cFoo]).libraries ∧
    ∃ n, (pFoo, n) ∈ [(pFoo, nFoo)] ∧
      ∃ g, g ∈ [cFoo] ∧ (soStr <:+: g) ∧ g <+: n :=
  ⟨by decide,
    C8_name_source elfFoo 1 [(pFoo, nFoo)] lookNone [cFoo] pFoo (by decide)⟩

/-- A world whose helper tool succeeds with one candidate. -/
def wHelperOk : World :=
  ⟨[], some ["prog".toList], some [], some [], some 0,
    fun _ => none, fun _ => none⟩

/-- A world where both the helper tool and the manifest file fail. -/
def wBothFail : World :=
  ⟨[], none, none, some [], some 0, fun _ => none, fun _ => none⟩

/-- C4: the helper-tool provider is tried first and its output used as the
candidate list with the manifest provider never invoked (the call's outcome
is independent of the manifest file); on helper failure the manifest's
trimmed, blank- and comment-filtered lines are the candidates; if both
providers fail the whole call errors. -/
theorem C4_provider_fallback :
    (∀ (l : List Str) (f : Option (List Str)),
      candidateStage (some l) f = some l) ∧
    (∀ (envPath : Str) (w : World) (l : List Str) (f : Option (List Str)),
      w.cli = some l →
      PathsFull envPath w = PathsFull envPath { w with liblistFile := f }) ∧
    (∀ f : Option (List Str), candidateStage none f = gpuliblist f) ∧
    (∀ lines : List Str,
      gpuliblist (some lines) = some ((lines.map trimSpaceL).filter liblistKeep)) ∧
    (∀ (envPath : Str) (w : World),
      candidateStage w.cli w.liblistFile = none →
      (PathsFull envPath w).1 = Except.error PErr.providerErr) := by
  refine ⟨fun l f => rfl, ?_, fun f => rfl, fun lines => rfl, ?_⟩
  · intro envPath w l f h
    simp [PathsFull, candidateStage, h]
  · intro envPath w h
    simp [PathsFull, h]

/-- Witness for C4: helper-success call independent of the manifest, and
both-providers-fail call erroring. -/
theorem C4_provider_fallback_witness :
    PathsFull [] wHelperOk = PathsFull [] { wHelperOk with liblistFile := none } ∧
    (PathsFull [] wBothFail).1 = Except.error PErr.providerErr :=
  ⟨C4_provider_fallback.2.1 [] wHelperOk ["prog".toList] none rfl,
   C4_provider_fallback.2.2.2.2 [] wBothFail rfl⟩

/-- A world whose `ldconfig -p` invocation fails. -/
def wNoCache : World :=
  ⟨[], some [], some [], none, some 0, fun _ => none, fun _ => none⟩

/-- A world where the reference architecture cannot be read. -/
def wNoArch : World :=
  ⟨[], some [], some [], some [], none, fun _ => none, fun _ => none⟩

/-- C5: a cache-listing failure or a reference-architecture failure makes the
whole call return an error (no result lists), while a per-candidate failure
(library that cannot be opened, binary not on the search path) leaves the
state unchanged — no error, earlier entries kept. -/
theorem C5_failure_semantics :
    (∀ (envPath : Str) (w : World), w.ldCache = none →
      ∃ e, (PathsFull envPath w).1 = Except.error e) ∧
    (∀ (envPath : Str) (w : World), w.selfArch = none →
      ∃ e, (PathsFull envPath w).1 = Except.error e) ∧
    (∀ (eo : Str → Option Nat) (m : Nat) (g : Str) (st : RState)
      (e : Str × Str), eo e.1 = none → processLibEntry eo m g st e = st) ∧
    (∀ (eo : Str → Option Nat) (m : Nat) (cache : List (Str × Str))
      (lp : Str → Option Str) (st : RState) (g : Str),
      ¬ (soStr <:+: g) → lp g = none →
      processCandidate eo m cache lp st g = st) := by
  refine ⟨?_, ?_, ?_, ?_⟩
  · intro envPath w h
    rcases hc : candidateStage w.cli w.liblistFile with _ | fs
    · exact ⟨PErr.providerErr, by simp [PathsFull, hc]⟩
    · exact ⟨PErr.ldconfigErr, by simp [PathsFull, hc, h]⟩
  · intro envPath w h
    rcases hc : candidateStage w.cli w.liblistFile with _ | fs
    · exact ⟨PErr.providerErr, by simp [PathsFull, hc]⟩
    · rcases hl : w.ldCache with _ | cache
      · exact ⟨PErr.ldconfigErr, by simp [PathsFull, hc, hl]⟩
      · exact ⟨PErr.archErr, by simp [PathsFull, hc, hl, h]⟩
  · intro eo m g st e h
    rw [processLibEntry]
    split
    · split
      · rfl
      · rw [h]
    · rfl
  · intro eo m cache lp st g hso hlp
    rw [processCandidate, if_neg hso, hlp]

/-- Witness for C5 at concrete failing worlds and candidates. -/
theorem C5_failure_semantics_witness :
    (∃ e, (PathsFull [] wNoCache).1 = Except.error e) ∧
    (∃ e, (PathsFull [] wNoArch).1 = Except.error e) ∧
    processLibEntry (fun _ => none) 0 cFoo ⟨[], [], [], []⟩ (pFoo, nFoo)
      = ⟨[], [], [], []⟩ ∧
    processCandidate (fun _ => none) 0 [] lookNone ⟨[], [], [], []⟩
      "nvidia-smi".toList = ⟨[], [], [], []⟩ :=
  ⟨C5_failure_semantics.1 [] wNoCache rfl,
   C5_failure_semantics.2.1 [] wNoArch rfl,
   C5_failure_semantics.2.2.1 (fun _ => none) 0 cFoo ⟨[], [], [], []⟩
     (pFoo, nFoo) rfl,
   C5_failure_semantics.2.2.2 (fun _ => none) 0 [] lookNone ⟨[], [], [], []⟩
     "nvidia-smi".toList (by decide) rfl⟩

/-- C6: with a nonempty search-path override, every call performs exactly the
trace save-PATH, set-override, restore-saved — on all exit paths, fatal
errors included — and replaying the trace leaves PATH at its prior value. -/
theorem C6_path_override_restore (envPath : Str) (w : World)
    (h : envPath ≠ []) :
    (PathsFull envPath w).2 =
      [EnvOp.getPATH, EnvOp.setPATH envPath, EnvOp.setPATH w.pathVar] ∧
    runEnvOps w.pathVar (PathsFull envPath w).2 = w.pathVar := by
  have htr : (PathsFull envPath w).2 =
      [EnvOp.getPATH, EnvOp.setPATH envPath, EnvOp.setPATH w.pathVar] := by
    rcases hc : candidateStage w.cli w.liblistFile with _ | fs
    · simp [PathsFull, hc, h]
    · rcases hl : w.ldCache with _ | cache
      · simp [PathsFull, hc, hl, h]
      · rcases ha : w.selfArch with _ | machine
        · simp [PathsFull, hc, hl, ha, h]
        · simp [PathsFull, hc, hl, ha, h]
  refine ⟨htr, ?_⟩
  rw [htr]
  simp [runEnvOps]

/-- Sample world for the C6 witness, with PATH `/usr/bin`. -/
def wSample : World :=
  ⟨"/usr/bin".toList, some [], some [], some [], some 0,
    fun _ => none, fun _ => none⟩

/-- Witness for C6 with the override `/opt/gpu/bin`. -/
theorem C6_path_override_restore_witness :
    (PathsFull "/opt/gpu/bin".toList wSample).2 =
      [EnvOp.getPATH, EnvOp.setPATH "/opt/gpu/bin".toList,
        EnvOp.setPATH wSample.pathVar] ∧
    runEnvOps wSample.pathVar (PathsFull "/opt/gpu/bin".toList wSample).2
      = wSample.pathVar :=
  C6_path_override_restore "/opt/gpu/bin".toList wSample (by decide)

/-- C9: the library/binary discriminator is a substring test on `".so"`: a
candidate containing `".so"` anywhere is matched against the cache and never
touches the binary results, and a candidate without `".so"` goes through
search-path lookup and never touches the library results. -/
theorem C9_so_marker_routing :
    (∀ (eo : Str → Option Nat) (m : Nat) (cache : List (Str × Str))
      (lp : Str → Option Str) (st : RState) (g : Str), (soStr <:+: g) →
      processCandidate eo m cache lp st g =
        cache.foldl (processLibEntry eo m g) st ∧
      (processCandidate eo m cache lp st g).binaries = st.binaries ∧
      (processCandidate eo m cache lp st g).binsSeen = st.binsSeen) ∧
    (∀ (eo : Str → Option Nat) (m : Nat) (cache : List (Str × Str))
      (lp : Str → Option Str) (st : RState) (g : Str), ¬ (soStr <:+: g) →
      (processCandidate eo m cache lp st g).libraries = st.libraries ∧
      (processCandidate eo m cache lp st g).libNames = st.libNames) := by
  constructor
  · intro eo m cache lp st g hso
    have heq : processCandidate eo m cache lp st g =
        cache.foldl (processLibEntry eo m g) st := by
      rw [processCandidate, if_pos hso]
    refine ⟨heq, ?_, ?_⟩
    · rw [heq]
      exact (foldl_processLibEntry_bins eo m g cache st).2
    · rw [heq]
      exact (foldl_processLibEntry_bins eo m g cache st).1
  · intro eo m cache lp st g hso
    rw [processCandidate, if_neg hso]
    rcases hl : lp g with _ | b
    · exact ⟨rfl, rfl⟩
    · dsimp only
      by_cases hb : b ∈ st.binsSeen
      · rw [if_pos hb]
        exact ⟨rfl, rfl⟩
      · rw [if_neg hb]
        exact ⟨rfl, rfl⟩

/-- Witness for C9: `/etc.so/tool` has `".so"` inside a directory component
and stays out of the binary results even though search-path lookup would find
it; `nvidia-smi` has no `".so"` and stays out of the library results. -/
theorem C9_so_marker_routing_witness :
    (soStr <:+: "/etc.so/tool".toList) ∧
    (processCandidate (fun _ => none) 0 [] (fun _ => some "/bin/t".toList)
      ⟨[], [], [], []⟩ "/etc.so/tool".toList).binaries = [] ∧
    ¬ (soStr <:+: "nvidia-smi".toList) ∧
    (processCandidate (fun _ => none) 0 [] (fun _ => some "/bin/t".toList)
      ⟨[], [], [], []⟩ "nvidia-smi".toList).libraries = [] :=
  ⟨by decide,
   (C9_so_marker_routing.1 (fun _ => none) 0 [] (fun _ => some "/bin/t".toList)
      ⟨[], [], [], []⟩ "/etc.so/tool".toList (by decide)).2.1,
   by decide,
   (C9_so_marker_routing.2 (fun _ => none) 0 [] (fun _ => some "/bin/t".toList)
      ⟨[], [], [], []⟩ "nvidia-smi".toList (by decide)).1⟩

/-- C10: with an empty search-path override the call performs no PATH
operation at all, on any exit path. -/
theorem C10_empty_override_no_ops (w : World) : (PathsFull [] w).2 = [] := by
  rcases hc : candidateStage w.cli w.liblistFile with _ | fs
  · simp [PathsFull, hc]
  · rcases hl : w.ldCache with _ | cache
    · simp [PathsFull, hc, hl]
    · rcases ha : w.selfArch with _ | machine
      · simp [PathsFull, hc, hl, ha]
      · simp [PathsFull, hc, hl, ha]
